import Mathlib

/-!
Verification of the polymarket-arbitrage core pipeline
(scanner.py, trader.py, main.py) via a shallow embedding.

Python floats are embedded as exact rationals (`ℚ`).  Wall-clock
dependent quantities (the `hours_until_end` property derived from
`end_date` and `datetime.now`) are abstracted as an `Option ℚ` field,
where `none` models the `float('inf')` returned when `end_date` is
absent or unparsable.  A `ZeroDivisionError` raised by `shares =
cost / price` is embedded as `Except.error ()`.
-/

namespace PMarb

/-! ### config.py -/

def VIRTUAL_BALANCE : ℚ := 1000
def MAX_TRADES_PER_RUN : Nat := 5
def MIN_PROBABILITY : ℚ := 90 / 100
def MAX_PROBABILITY : ℚ := 98 / 100
def MAX_HOURS_UNTIL_END : ℚ := 4
def MIN_VOLUME : ℚ := 1000
def MAX_FEE : ℚ := 0
def TRADE_AMOUNT : ℚ := 5

/-- Configuration record: the filter and trader read these module-level
constants; claims quantify over "the configured" values, so the filter
is parameterized by a `Config`. -/
structure Config where
  VIRTUAL_BALANCE : ℚ
  MAX_TRADES_PER_RUN : Nat
  MIN_PROBABILITY : ℚ
  MAX_PROBABILITY : ℚ
  MAX_HOURS_UNTIL_END : ℚ
  MIN_VOLUME : ℚ
  MAX_FEE : ℚ
  TRADE_AMOUNT : ℚ
deriving DecidableEq

def defaultConfig : Config :=
  ⟨VIRTUAL_BALANCE, MAX_TRADES_PER_RUN, MIN_PROBABILITY, MAX_PROBABILITY,
   MAX_HOURS_UNTIL_END, MIN_VOLUME, MAX_FEE, TRADE_AMOUNT⟩

/-! ### scanner.py : Market -/

/-- `Market` dataclass of scanner.py.  `outcome_prices` holds the values
the `float(...)` coercion in `yes_price`/`no_price` produces (a price
entry whose coercion fails is represented by its source default `0`).
`fee` abstracts the stored fee string by its later `float` parse in
`filter_markets`: `some q` when `float(fee)` yields `q` (an empty/falsy
string yields `0` there without parsing), `none` when `float(fee)`
raises.  `hours_until_end` abstracts the clock-dependent derived
property; `none` models `float('inf')`. -/
structure Market where
  id : String
  question : String
  end_date : String
  outcome_prices : List ℚ
  volume : ℚ
  liquidity : ℚ
  fee : Option ℚ
  clob_token_ids : List String
  closed : Bool
  accepting_orders : Bool
  start_date : String
  created_at : String
  hours_until_end : Option ℚ
deriving DecidableEq

/-- `Market.yes_price`: `float(outcome_prices[0])` if present else `0.0`. -/
def Market.yes_price (m : Market) : ℚ := m.outcome_prices.getD 0 0

/-- `Market.no_price`: `float(outcome_prices[1])` if present else `0.0`. -/
def Market.no_price (m : Market) : ℚ := m.outcome_prices.getD 1 0

/-- `Market.max_probability = max(yes_price, no_price)`. -/
def Market.max_probability (m : Market) : ℚ := max m.yes_price m.no_price

/-- `Market.high_probability_outcome`: `"YES" if yes_price >= no_price else "NO"`. -/
def Market.high_probability_outcome (m : Market) : String :=
  if m.no_price ≤ m.yes_price then "YES" else "NO"

/-- `Market.high_probability_price = max(yes_price, no_price)`. -/
def Market.high_probability_price (m : Market) : ℚ :=
  max m.yes_price m.no_price

/-! ### scanner.py : parse_market -/

/-- A loosely-typed boolean-ish payload field for `parse_bool`. -/
inductive RawBool
  | b (v : Bool)
  | s (v : String)
  | other
deriving DecidableEq

/-- `parse_bool` of scanner.py: native booleans pass through, strings
compare case-insensitively against `"true"`, anything else is `False`. -/
def parse_bool : RawBool → Bool
  | .b v => v
  | .s v => v.toLower == "true"
  | .other => false

/-- A loosely-typed numeric payload field as consumed by
`float(data.get(key, 0) or 0)`: `absent` (key missing, `.get` gives 0),
`falsy` (present but falsy — `None`, `""`, `0`-like — so `or 0` gives 0),
`num q` (truthy and `float` coerces to `q`), `badStr` (truthy and
`float` raises `ValueError`). -/
inductive RawNum
  | absent
  | falsy
  | num (q : ℚ)
  | badStr
deriving DecidableEq

/-- The result of `float(data.get(key, 0) or 0)`: `none` models the
raised `ValueError` (caught only by `parse_market`'s outer `except`). -/
def coerceNum : RawNum → Option ℚ
  | .absent => some 0
  | .falsy => some 0
  | .num q => some q
  | .badStr => none

/-- One raw API market record, restricted to the fields `parse_market`
consumes.  `outcomePrices` is `some ps` when the field is present and
`json.loads` succeeds (already coerced entries, see `Market`), `none`
when absent/falsy or when the decode fails (both give `[]`).  `fee` is
`some v` when the key is present, with `v` the abstraction described at
`Market.fee`; key absent defaults to the string `'0'`, i.e. `some 0`. -/
structure RawMarket where
  id : Option String
  question : Option String
  endDate : Option String
  startDate : Option String
  createdAt : Option String
  outcomePrices : Option (List ℚ)
  clobTokenIds : Option (List String)
  volume : RawNum
  liquidity : RawNum
  fee : Option (Option ℚ)
  closed : Option RawBool
  acceptingOrders : Option RawBool
  hours_until_end : Option ℚ
deriving DecidableEq

/-- `MarketScanner.parse_market`: builds a `Market`, defaulting absent
fields; a `float` failure on `volume` or `liquidity` escapes to the
outer `except`, which logs and returns `None` (the record is skipped). -/
def parse_market (d : RawMarket) : Option Market :=
  match coerceNum d.volume, coerceNum d.liquidity with
  | some v, some l =>
    some
      { id := d.id.getD ""
        question := d.question.getD ""
        end_date := d.endDate.getD ""
        outcome_prices := d.outcomePrices.getD []
        volume := v
        liquidity := l
        fee := d.fee.getD (some 0)
        clob_token_ids := d.clobTokenIds.getD []
        closed := parse_bool (d.closed.getD .other)
        accepting_orders := parse_bool (d.acceptingOrders.getD (.b true))
        start_date := d.startDate.getD ""
        created_at := d.createdAt.getD ""
        hours_until_end := d.hours_until_end }
  | _, _ => none

/-! ### scanner.py : filter_markets -/

/-- Check `if market.hours_until_end <= 0: continue` — with `none`
modeling `float('inf')`, which is not `≤ 0`, so it passes. -/
def hoursPositive (m : Market) : Bool :=
  match m.hours_until_end with
  | none => true
  | some h => decide (0 < h)

/-- Check `if market.hours_until_end > MAX_HOURS_UNTIL_END: continue` —
`float('inf')` exceeds the bound, so `none` is rejected. -/
def hoursWithin (cfg : Config) (m : Market) : Bool :=
  match m.hours_until_end with
  | none => false
  | some h => decide (h ≤ cfg.MAX_HOURS_UNTIL_END)

/-- Check 3 of `filter_markets`: `fee = float(market.fee) if market.fee
else 0; if fee > MAX_FEE: continue` inside `try`, with `except: pass` —
a parse failure (`none`) passes. -/
def feeOk (cfg : Config) (m : Market) : Bool :=
  match m.fee with
  | none => true
  | some f => !(decide (cfg.MAX_FEE < f))

/-- The conjunction of the six ordered `continue` guards of
`MarketScanner.filter_markets`, in source order. -/
def passes (cfg : Config) (m : Market) : Bool :=
  !(m.closed || !m.accepting_orders) &&
  hoursPositive m &&
  hoursWithin cfg m &&
  !(decide (m.max_probability < cfg.MIN_PROBABILITY)) &&
  !(decide (cfg.MAX_PROBABILITY < m.max_probability)) &&
  feeOk cfg m &&
  !(decide (m.volume < cfg.MIN_VOLUME))

/-- Comparison used by `filtered.sort(key=lambda m: m.high_probability_price)`
(Python `list.sort` is stable, modeled by `List.mergeSort`). -/
def priceLe (a b : Market) : Bool :=
  decide (a.high_probability_price ≤ b.high_probability_price)

/-- `MarketScanner.filter_markets`: keep the markets passing all guards,
stable-sort ascending by dominant price, truncate to
`MAX_TRADES_PER_RUN`. -/
def filter_markets (cfg : Config) (markets : List Market) : List Market :=
  ((markets.filter (passes cfg)).mergeSort priceLe).take cfg.MAX_TRADES_PER_RUN

/-- The Eligibility Filter predicates as stated by the specification
(spec §4.2 / claim C2), for comparison with the source-derived
`passes`. -/
def passesSpec (cfg : Config) (m : Market) : Prop :=
  m.closed = false ∧ m.accepting_orders = true ∧
  (∀ h, m.hours_until_end = some h → 0 < h) ∧
  (∃ h, m.hours_until_end = some h ∧ h ≤ cfg.MAX_HOURS_UNTIL_END) ∧
  cfg.MIN_PROBABILITY ≤ m.max_probability ∧
  m.max_probability ≤ cfg.MAX_PROBABILITY ∧
  (∀ f, m.fee = some f → f ≤ cfg.MAX_FEE) ∧
  cfg.MIN_VOLUME ≤ m.volume

/-! ### trader.py : VirtualTrader -/

/-- One entry of `VirtualTrader.positions` (a dict in the source). -/
structure Position where
  market_id : String
  question : String
  outcome : String
  price : ℚ
  shares : ℚ
  cost : ℚ
  potential_payout : ℚ
  profit_if_win : ℚ
deriving DecidableEq

/-- `ExecutedTrade` dataclass (the wall-clock `timestamp` is omitted). -/
structure ExecutedTrade where
  market_id : String
  question : String
  outcome : String
  price : ℚ
  amount : ℚ
  cost : ℚ
  status : String
  start_date : String
  end_date : String
  created_at : String
deriving DecidableEq

/-- `VirtualTrader` state. -/
structure VirtualTrader where
  balance : ℚ
  initial_balance : ℚ
  positions : List Position
  trade_history : List ExecutedTrade
deriving DecidableEq

/-- `VirtualTrader.__init__(initial_balance)`. -/
def mkTrader (b : ℚ) : VirtualTrader := ⟨b, b, [], []⟩

/-- `VirtualTrader.execute_trade(market, amount=None)`.  The `amount`
argument is bound (defaulting to `TRADE_AMOUNT`) but never used by the
source computation.  The source computes `shares = cost / price` before
the balance check; when `price = 0` this raises `ZeroDivisionError`,
embedded as `Except.error ()` (the trader state is not yet mutated at
the raise point). -/
def executeTrade (st : VirtualTrader) (m : Market) (amount : Option ℚ) :
    Except Unit (VirtualTrader × Option ExecutedTrade) :=
  let _amt := amount.getD TRADE_AMOUNT
  let outcome := m.high_probability_outcome
  let price := m.high_probability_price
  let shares_count : ℚ := 5
  let cost := price * shares_count
  if price = 0 then Except.error ()
  else
    let shares := cost / price
    if st.balance < cost then Except.ok (st, none)
    else
      let trade : ExecutedTrade :=
        ⟨m.id, m.question, outcome, price, shares, cost, "simulated",
         m.start_date, m.end_date, m.created_at⟩
      let pos : Position :=
        ⟨m.id, m.question, outcome, price, shares, cost, shares, shares - cost⟩
      Except.ok
        ({ st with
            balance := st.balance - cost
            positions := st.positions ++ [pos]
            trade_history := st.trade_history ++ [trade] }, some trade)

/-- `VirtualTrader.get_balance`. -/
def VirtualTrader.get_balance (st : VirtualTrader) : ℚ := st.balance

/-- `VirtualTrader.get_total_invested`: `sum(p['cost'] for p in positions)`. -/
def VirtualTrader.get_total_invested (st : VirtualTrader) : ℚ :=
  (st.positions.map (fun p => p.cost)).sum

/-- `VirtualTrader.get_potential_payout`. -/
def VirtualTrader.get_potential_payout (st : VirtualTrader) : ℚ :=
  (st.positions.map (fun p => p.potential_payout)).sum

/-- `VirtualTrader.get_total_profit_if_win`. -/
def VirtualTrader.get_total_profit_if_win (st : VirtualTrader) : ℚ :=
  (st.positions.map (fun p => p.profit_if_win)).sum

/-- The returned trade (if any) of an `executeTrade` result. -/
def resultTrade (r : Except Unit (VirtualTrader × Option ExecutedTrade)) :
    Option ExecutedTrade :=
  match r with
  | .ok (_, t) => t
  | .error _ => none

/-- The post-state of an `executeTrade` result (`none` on a raise). -/
def resultState (r : Except Unit (VirtualTrader × Option ExecutedTrade)) :
    Option VirtualTrader :=
  match r with
  | .ok (s, _) => some s
  | .error _ => none

/-- One call of `execute_trade` in a call sequence: on a raise the
state is unchanged (the exception fires before any mutation). -/
def step (st : VirtualTrader) (m : Market) : VirtualTrader :=
  match executeTrade st m none with
  | .ok (st', _) => st'
  | .error _ => st

/-- A sequence of `execute_trade` calls. -/
def runTrades (st : VirtualTrader) (ms : List Market) : VirtualTrader :=
  ms.foldl step st

/-! ### main.py : the trade loop of ArbitrageBot.run_once (lines 99-115) -/

/-- The per-cycle trade loop: before each attempt the loop `break`s when
`self.trader.get_balance() < config.TRADE_AMOUNT`; an attempt returning
no trade is logged and the loop continues with the next candidate.  An
escaping exception (only possible via `ZeroDivisionError`) aborts the
loop. -/
def tradeLoop (st : VirtualTrader) (ms : List Market)
    (acc : List ExecutedTrade) : VirtualTrader × List ExecutedTrade :=
  match ms with
  | [] => (st, acc)
  | m :: rest =>
    if st.balance < TRADE_AMOUNT then (st, acc)
    else
      match executeTrade st m none with
      | .ok (st', some t) => tradeLoop st' rest (acc ++ [t])
      | .ok (st', none) => tradeLoop st' rest acc
      | .error _ => (st, acc)

/-! ### trader.py : TradeRecorder -/

/-- An executed-trade dict as stored in a run record: only the fields
`record_run` aggregates over. -/
structure RecTrade where
  amount : ℚ
  cost : ℚ
deriving DecidableEq

/-- One run record, restricted to its `executed_trades`. -/
structure RunRec where
  executed_trades : List RecTrade
deriving DecidableEq

/-- The persisted trades store (`TradeRecorder.trades`). -/
structure TradesStore where
  runs : List RunRec
  total_invested : ℚ
  total_payout : ℚ
  win_count : Nat
  loss_count : Nat
deriving DecidableEq

/-- The default store built by `TradeRecorder._load` when no file exists. -/
def emptyStore : TradesStore := ⟨[], 0, 0, 0, 0⟩

/-- `TradeRecorder.record_run`, restricted to its effect on the store:
append one run record and update the aggregate counter via
`self.trades['total_invested'] += sum(t['amount'] for t in executed)`
(guarded by `if executed:`). -/
def record_run (s : TradesStore) (executed : List RecTrade) : TradesStore :=
  { s with
      runs := s.runs ++ [⟨executed⟩]
      total_invested :=
        s.total_invested +
          (if executed.isEmpty then 0 else (executed.map (fun t => t.amount)).sum) }

/-! ### scanner.py : check_settlements -/

/-- An executed trade as read back from the trades file by
`check_settlements` (`settled` absent reads as falsy). -/
structure LTrade where
  market_id : String
  question : String
  settled : Bool
  resolution : Option String
deriving DecidableEq

/-- One run of the trades file, restricted to `executed_trades`. -/
structure SRun where
  executed_trades : List LTrade
deriving DecidableEq

/-- The trades file content (`data['runs']`). -/
abbrev Ledger : Type := List SRun

/-- The upstream market state consumed by settlement checking:
`closed` and `resolution` of the `GET /markets/{id}` response. -/
structure ApiMarket where
  closed : Bool
  resolution : Option String
deriving DecidableEq

/-- The three output lists of `check_settlements`. -/
structure SettleResult where
  resolved : List LTrade
  unresolved : List LTrade
  newly_resolved : List LTrade
deriving DecidableEq

/-- All not-yet-settled trades across all runs, in file order. -/
def allUnsettled (ledger : Ledger) : List LTrade :=
  ledger.foldr
    (fun r acc => r.executed_trades.filter (fun t => !t.settled) ++ acc) []

/-- The de-duplication loop: `if mid and mid not in unique_markets:
unique_markets[mid] = t` — first occurrence wins, empty ids are dropped,
insertion order is kept. -/
def uniqueMarkets (ts : List LTrade) : List LTrade :=
  ts.foldl
    (fun acc t =>
      if t.market_id == "" then acc
      else if acc.any (fun u => u.market_id == t.market_id) then acc
      else acc ++ [t]) []

/-- `resolution and str(resolution) != 'null'`: a present, truthy
resolution string other than `"null"`. -/
def resolutionTruthy : Option String → Bool
  | none => false
  | some s => !(s == "") && !(s == "null")

/-- `MarketScanner.check_settlements`.  The `api` argument models
`GET {base_url}/markets/{mid}`; `none` models a raised request
exception, which the source catches and files under `unresolved`.  The
`Nat` component counts the outbound market queries issued.  Both early
returns (missing file aside) query nothing. -/
def checkSettlements (api : String → Option ApiMarket) (ledger : Ledger) :
    SettleResult × Nat :=
  let allt := allUnsettled ledger
  if allt.isEmpty then (⟨[], [], []⟩, 0)
  else
    (uniqueMarkets allt).foldl
      (fun p t =>
        let acc := p.1
        let n := p.2
        match api t.market_id with
        | none => ({ acc with unresolved := acc.unresolved ++ [t] }, n + 1)
        | some mk =>
          if mk.closed && resolutionTruthy mk.resolution then
            let r : LTrade :=
              { t with resolution := mk.resolution, settled := true }
            ({ acc with
                resolved := acc.resolved ++ [r]
                newly_resolved :=
                  if !t.settled then acc.newly_resolved ++ [r]
                  else acc.newly_resolved }, n + 1)
          else if mk.closed then
            let r : LTrade :=
              { t with resolution := some "CANCELLED", settled := true }
            ({ acc with
                resolved := acc.resolved ++ [r]
                newly_resolved :=
                  if !t.settled then acc.newly_resolved ++ [r]
                  else acc.newly_resolved }, n + 1)
          else ({ acc with unresolved := acc.unresolved ++ [t] }, n + 1))
      (⟨⟨[], [], []⟩, 0⟩ : SettleResult × Nat)

/-- The settlement step of `ArbitrageBot.run_once` (main.py lines
52-56): the result is only logged; the trades file is never updated
(the write-back is an unimplemented `TODO` in the source), so the
ledger after the step is the ledger before it. -/
def runOnceSettlement (api : String → Option ApiMarket) (ledger : Ledger) :
    SettleResult × Ledger :=
  ((checkSettlements api ledger).1, ledger)

/-! ### Sample data used by witnesses and counterexamples -/

/-- A market with dominant price `0.97` (spec Scenario D flavour). -/
def mkt97 : Market :=
  ⟨"m97", "q97", "", [97/100, 3/100], 5000, 0, some 0, [], false, true,
   "", "", some 2⟩

/-- A market whose two outcome prices are both `0` (e.g. after a
price-parse failure defaulted them to `0.0`). -/
def mZero : Market :=
  ⟨"z", "qz", "", [0, 0], 0, 0, some 0, [], false, true, "", "", some 1⟩

/-- The trade `execute_trade` produces on `mkt97`. -/
def tr97 : ExecutedTrade :=
  ⟨"m97", "q97", "YES", 97/100, 5, 97/20, "simulated", "", "", ""⟩

lemma mkt97_yes : mkt97.yes_price = 97/100 := by
  simp [mkt97, Market.yes_price]

lemma mkt97_no : mkt97.no_price = 3/100 := by
  simp [mkt97, Market.no_price]

lemma mkt97_price : mkt97.high_probability_price = 97/100 := by
  rw [Market.high_probability_price, mkt97_yes, mkt97_no]
  norm_num [max_def]

lemma mkt97_price_ne : mkt97.high_probability_price ≠ 0 := by
  rw [mkt97_price]; norm_num

lemma mZero_yes : mZero.yes_price = 0 := by
  simp [mZero, Market.yes_price]

lemma mZero_no : mZero.no_price = 0 := by
  simp [mZero, Market.no_price]

lemma mZero_price : mZero.high_probability_price = 0 := by
  rw [Market.high_probability_price, mZero_yes, mZero_no]
  norm_num

/-! ### Theorems about VirtualTrader.execute_trade -/

/-- Case analysis of one `execute_trade` call as a state transition:
either the state is unchanged (raise, or no-trade on insufficient
balance), or the balance was sufficient and exactly the cost moved from
the balance into one appended position. -/
lemma step_cases (st : VirtualTrader) (m : Market) :
    step st m = st ∨
    (¬ st.balance < m.high_probability_price * 5 ∧
      (step st m).balance = st.balance - m.high_probability_price * 5 ∧
      (step st m).initial_balance = st.initial_balance ∧
      ∃ pos : Position, pos.cost = m.high_probability_price * 5 ∧
        (step st m).positions = st.positions ++ [pos]) := by
  unfold step executeTrade
  by_cases hp : m.high_probability_price = 0
  · simp [hp]
  · rw [if_neg hp]
    by_cases hb : st.balance < m.high_probability_price * 5
    · rw [if_pos hb]; left; rfl
    · rw [if_neg hb]
      right
      refine ⟨hb, rfl, rfl, ⟨_, rfl, rfl⟩⟩

/-- The balance stays non-negative along any call sequence. -/
lemma runTrades_nonneg (ms : List Market) :
    ∀ st : VirtualTrader, 0 ≤ st.balance → 0 ≤ (runTrades st ms).balance := by
  induction ms with
  | nil => intro st h; exact h
  | cons m rest ih =>
    intro st h
    have hstep : 0 ≤ (step st m).balance := by
      rcases step_cases st m with heq | ⟨hb, hbal, -, -⟩
      · rw [heq]; exact h
      · rw [hbal]; exact sub_nonneg.mpr (not_lt.mp hb)
    exact ih (step st m) hstep

/-- Conservation along any call sequence: `balance + Σ cost` over the
positions, and the recorded initial balance, are invariant. -/
lemma runTrades_conservation (ms : List Market) :
    ∀ st : VirtualTrader,
      (runTrades st ms).balance + (runTrades st ms).get_total_invested =
        st.balance + st.get_total_invested ∧
      (runTrades st ms).initial_balance = st.initial_balance := by
  induction ms with
  | nil => intro st; exact ⟨rfl, rfl⟩
  | cons m rest ih =>
    intro st
    have hstep :
        (step st m).balance + (step st m).get_total_invested =
          st.balance + st.get_total_invested ∧
        (step st m).initial_balance = st.initial_balance := by
      rcases step_cases st m with heq | ⟨-, hbal, hinit, pos, hcost, hpos⟩
      · rw [heq]; exact ⟨rfl, rfl⟩
      · constructor
        · rw [hbal]
          have : (step st m).get_total_invested =
              st.get_total_invested + pos.cost := by
            unfold VirtualTrader.get_total_invested
            rw [hpos]; simp
          rw [this, hcost]; ring
        · exact hinit
    have := ih (step st m)
    exact ⟨by rw [show runTrades st (m :: rest) = runTrades (step st m) rest
                    from rfl, this.1, hstep.1],
           by rw [show runTrades st (m :: rest) = runTrades (step st m) rest
                    from rfl, this.2, hstep.2]⟩

/-- Claim C1 (amended: the market's dominant price must be nonzero for
the no-trade/success dichotomy — a zero dominant price instead raises
`ZeroDivisionError`, see `c1_counterexample`).  `execute_trade` returns
no trade and leaves the state unchanged iff `balance < cost`; on
success the balance drops by exactly `cost = price × 5`, one position
(with `potential_payout = shares` and `profit_if_win = shares − cost`)
and the returned trade are appended; the balance never goes negative
along any sequence of calls started from a non-negative balance. -/
theorem c1_execute_trade_spec (st : VirtualTrader) (m : Market) (a : Option ℚ)
    (hp : m.high_probability_price ≠ 0) :
    (executeTrade st m a = .ok (st, none) ↔
      st.balance < m.high_probability_price * 5) ∧
    (¬ st.balance < m.high_probability_price * 5 →
      ∃ t : ExecutedTrade,
        executeTrade st m a =
          .ok ({ st with
                  balance := st.balance - m.high_probability_price * 5
                  positions := st.positions ++
                    [⟨m.id, m.question, m.high_probability_outcome,
                      m.high_probability_price, t.amount, t.cost,
                      t.amount, t.amount - t.cost⟩]
                  trade_history := st.trade_history ++ [t] }, some t) ∧
        t.cost = m.high_probability_price * 5 ∧ t.amount = 5) ∧
    (∀ ms : List Market, 0 ≤ st.balance → 0 ≤ (runTrades st ms).balance) := by
  refine ⟨?_, ?_, fun ms h => runTrades_nonneg ms st h⟩
  · constructor
    · intro h
      by_contra hb
      unfold executeTrade at h
      rw [if_neg hp, if_neg hb] at h
      simp at h
    · intro hb
      unfold executeTrade
      rw [if_neg hp, if_pos hb]
  · intro hb
    refine ⟨⟨m.id, m.question, m.high_probability_outcome,
      m.high_probability_price,
      m.high_probability_price * 5 / m.high_probability_price,
      m.high_probability_price * 5, "simulated",
      m.start_date, m.end_date, m.created_at⟩, ?_, rfl, ?_⟩
    · unfold executeTrade
      rw [if_neg hp, if_neg hb]
    · exact mul_div_cancel_left₀ 5 hp

/-- Claim C1 counterexample: on a market whose two prices are both `0`
and a state with `balance < cost` (`cost = 0` here), `execute_trade`
raises instead of returning no trade with the state unchanged, so the
stated iff fails.  `resultState`/`resultTrade` being `none` witnesses
the raise. -/
theorem c1_counterexample :
    (mkTrader (-1)).balance < mZero.high_probability_price * 5 ∧
    resultState (executeTrade (mkTrader (-1)) mZero none) = none ∧
    resultTrade (executeTrade (mkTrader (-1)) mZero none) = none := by
  have herr : executeTrade (mkTrader (-1)) mZero none = .error () := by
    unfold executeTrade
    rw [if_pos mZero_price]
  refine ⟨?_, ?_, ?_⟩
  · rw [mZero_price]; norm_num [mkTrader]
  · rw [herr]; rfl
  · rw [herr]; rfl

/-- Witness for `c1_execute_trade_spec` at a concrete input: a trader
with balance `1` cannot afford `cost = 4.85` on `mkt97`, so the call
returns no trade and leaves the state unchanged. -/
theorem c1_witness :
    executeTrade (mkTrader 1) mkt97 none = .ok (mkTrader 1, none) :=
  ((c1_execute_trade_spec (mkTrader 1) mkt97 none mkt97_price_ne).1).mpr
    (by rw [mkt97_price]; norm_num [mkTrader])

/-- Claim C4: every trade returned by `execute_trade` satisfies
`cost = price × shares` exactly and `shares = 5`, independently of the
market's price and of the `amount` argument (the configured trade
amount), which the computation never uses. -/
theorem c4_cost_price_shares (st : VirtualTrader) (m : Market) (a : Option ℚ)
    (t : ExecutedTrade) (h : resultTrade (executeTrade st m a) = some t) :
    t.cost = t.price * t.amount ∧ t.amount = 5 ∧
    ∀ a', executeTrade st m a' = executeTrade st m a := by
  refine ⟨?_, ?_, fun a' => rfl⟩ <;>
  · unfold executeTrade at h
    by_cases hp : m.high_probability_price = 0
    · rw [if_pos hp] at h; simp [resultTrade] at h
    · rw [if_neg hp] at h
      by_cases hb : st.balance < m.high_probability_price * 5
      · rw [if_pos hb] at h; simp [resultTrade] at h
      · rw [if_neg hb] at h
        simp only [resultTrade, Option.some.injEq] at h
        subst h
        simp [mul_div_cancel_left₀ _ hp]

/-- Witness for `c4_cost_price_shares`: the trade produced on `mkt97`
from balance `10` has `cost = 0.97 × 5 = 4.85`, `shares = 5`. -/
theorem c4_witness :
    tr97.cost = tr97.price * tr97.amount ∧ tr97.amount = 5 ∧
    ∀ a', executeTrade (mkTrader 10) mkt97 a' =
      executeTrade (mkTrader 10) mkt97 none :=
  c4_cost_price_shares (mkTrader 10) mkt97 none tr97 (by
    unfold executeTrade
    rw [mkt97_price]
    norm_num [resultTrade, mkTrader, mkt97, tr97,
      Market.high_probability_outcome, Market.yes_price, Market.no_price])

/-- Claim C9: `execute_trade` raises a division-by-zero (embedded as
`Except.error`) whenever both outcome prices are `0` — the raise
happens while computing `shares`, before the balance check, so no
normal return occurs for any balance; for a nonzero dominant price the
call returns normally and any returned trade has `shares = 5`. -/
theorem c9_zero_price_raises (st : VirtualTrader) (m : Market) (a : Option ℚ) :
    (m.yes_price = 0 ∧ m.no_price = 0 → executeTrade st m a = .error ()) ∧
    (m.high_probability_price ≠ 0 →
      ∃ st' r, executeTrade st m a = .ok (st', r) ∧
        ∀ t, r = some t → t.amount = 5) := by
  constructor
  · rintro ⟨h1, h2⟩
    have hp : m.high_probability_price = 0 := by
      rw [Market.high_probability_price, h1, h2]; simp
    unfold executeTrade
    rw [if_pos hp]
  · intro hp
    unfold executeTrade
    rw [if_neg hp]
    by_cases hb : st.balance < m.high_probability_price * 5
    · rw [if_pos hb]
      exact ⟨st, none, rfl, by simp⟩
    · rw [if_neg hb]
      refine ⟨_, _, rfl, ?_⟩
      intro t ht
      rcases Option.some.inj ht with rfl
      simp [mul_div_cancel_left₀ _ hp]

/-- Witness for `c9_zero_price_raises`: the zero-price market raises
for a rich trader, and `mkt97` (price `0.97 ≠ 0`) returns normally with
five shares. -/
theorem c9_witness :
    executeTrade (mkTrader 1000) mZero none = Except.error () ∧
    ∃ st' r, executeTrade (mkTrader 1000) mkt97 none = Except.ok (st', r) ∧
      ∀ t, r = some t → t.amount = 5 :=
  ⟨(c9_zero_price_raises (mkTrader 1000) mZero none).1 ⟨mZero_yes, mZero_no⟩,
   (c9_zero_price_raises (mkTrader 1000) mkt97 none).2 mkt97_price_ne⟩

/-- Claim C10 (amended: the corollary `get_total_invested ≤
initial_balance` needs a non-negative initial balance — see
`c10_counterexample`).  Conservation holds along every call sequence:
`balance + get_total_invested` stays equal to the initial balance. -/
theorem c10_conservation (b : ℚ) (ms : List Market) :
    (runTrades (mkTrader b) ms).balance +
      (runTrades (mkTrader b) ms).get_total_invested = b ∧
    (runTrades (mkTrader b) ms).initial_balance = b ∧
    (0 ≤ b → (runTrades (mkTrader b) ms).get_total_invested ≤ b) := by
  have h := runTrades_conservation ms (mkTrader b)
  have h0 : (mkTrader b).get_total_invested = 0 := by
    simp [VirtualTrader.get_total_invested, mkTrader]
  have hmain : (runTrades (mkTrader b) ms).balance +
      (runTrades (mkTrader b) ms).get_total_invested = b := by
    rw [h.1, h0, add_zero]; rfl
  refine ⟨hmain, ?_, ?_⟩
  · rw [h.2]; rfl
  · intro hb
    have hbal : 0 ≤ (runTrades (mkTrader b) ms).balance :=
      runTrades_nonneg ms (mkTrader b) hb
    linarith

/-- Claim C10 counterexample: for a trader constructed with a negative
initial balance (`VirtualTrader(-1)` is constructible, e.g. via the
`--balance` CLI flag), `get_total_invested() = 0` already exceeds
`initial_balance = -1`, so the unrestricted corollary is false. -/
theorem c10_counterexample :
    (mkTrader (-1)).initial_balance < (mkTrader (-1)).get_total_invested := by
  decide

/-- Witness for `c10_conservation` at balance `10` and one `mkt97`
trade. -/
theorem c10_witness :
    (runTrades (mkTrader 10) [mkt97]).get_total_invested ≤ 10 :=
  (c10_conservation 10 [mkt97]).2.2 (by norm_num)

/-! ### Theorems about MarketScanner.filter_markets -/

/-- The source-order guard conjunction agrees with the spec's six
predicates. -/
lemma passes_iff (cfg : Config) (m : Market) :
    passes cfg m = true ↔ passesSpec cfg m := by
  unfold passes passesSpec hoursPositive hoursWithin feeOk
  rcases hh : m.hours_until_end with _ | h <;>
    rcases hf : m.fee with _ | f <;>
      simp [Bool.and_eq_true, decide_eq_true_iff, not_lt, and_assoc,
        Bool.not_eq_true', Bool.or_eq_false_iff, Bool.not_eq_false]

/-- Scenario A market of the spec: `max_probability = 0.95`,
`hours_until_end = 2`, `fee = 0`, `volume = 5000`, open and accepting
orders. -/
def mkt95 : Market :=
  ⟨"m95", "q95", "", [19/20, 1/20], 5000, 0, some 0, [], false, true,
   "", "", some 2⟩

/-- A second market identical to `mkt95` except for its id (used to
exercise tie stability). -/
def m5b : Market :=
  ⟨"m95b", "q95b", "", [19/20, 1/20], 5000, 0, some 0, [], false, true,
   "", "", some 2⟩

lemma mkt95_maxp : mkt95.max_probability = 19/20 := by
  rw [Market.max_probability]
  simp [mkt95, Market.yes_price, Market.no_price]
  norm_num [max_def]

lemma m5b_maxp : m5b.max_probability = 19/20 := by
  rw [Market.max_probability]
  simp [m5b, Market.yes_price, Market.no_price]
  norm_num [max_def]

lemma passesSpec_mkt95 : passesSpec defaultConfig mkt95 := by
  refine ⟨rfl, rfl, ?_, ⟨2, rfl, by norm_num [defaultConfig, MAX_HOURS_UNTIL_END]⟩,
    ?_, ?_, ?_, ?_⟩
  · intro h hh
    exact (Option.some.inj hh) ▸ (by norm_num : (0:ℚ) < 2)
  · rw [mkt95_maxp]; norm_num [defaultConfig, MIN_PROBABILITY]
  · rw [mkt95_maxp]; norm_num [defaultConfig, MAX_PROBABILITY]
  · intro f hf
    rcases Option.some.inj hf.symm with rfl
    norm_num [defaultConfig, MAX_FEE]
  · norm_num [defaultConfig, MIN_VOLUME, mkt95]

lemma passesSpec_m5b : passesSpec defaultConfig m5b := by
  refine ⟨rfl, rfl, ?_, ⟨2, rfl, by norm_num [defaultConfig, MAX_HOURS_UNTIL_END]⟩,
    ?_, ?_, ?_, ?_⟩
  · intro h hh
    exact (Option.some.inj hh) ▸ (by norm_num : (0:ℚ) < 2)
  · rw [m5b_maxp]; norm_num [defaultConfig, MIN_PROBABILITY]
  · rw [m5b_maxp]; norm_num [defaultConfig, MAX_PROBABILITY]
  · intro f hf
    rcases Option.some.inj hf.symm with rfl
    norm_num [defaultConfig, MAX_FEE]
  · norm_num [defaultConfig, MIN_VOLUME, m5b]

/-- Claim C2: a market is in the filter output iff it is in the input
and satisfies the six spec predicates; the only further restriction is
the final ranking cap (the forward direction is unconditional, the
equivalence holds whenever the cap does not bite). -/
theorem c2_filter_membership (cfg : Config) (l : List Market) (m : Market) :
    (m ∈ filter_markets cfg l → m ∈ l ∧ passesSpec cfg m) ∧
    ((l.filter (passes cfg)).length ≤ cfg.MAX_TRADES_PER_RUN →
      (m ∈ filter_markets cfg l ↔ m ∈ l ∧ passesSpec cfg m)) := by
  have hfwd : m ∈ filter_markets cfg l → m ∈ l ∧ passesSpec cfg m := by
    intro hm
    unfold filter_markets at hm
    have h1 : m ∈ (l.filter (passes cfg)).mergeSort priceLe :=
      List.mem_of_mem_take hm
    have h2 : m ∈ l.filter (passes cfg) := List.mem_mergeSort.mp h1
    have h3 := List.mem_filter.mp h2
    exact ⟨h3.1, (passes_iff cfg m).mp h3.2⟩
  refine ⟨hfwd, fun hcap => ⟨hfwd, ?_⟩⟩
  rintro ⟨hl, hsp⟩
  unfold filter_markets
  have h2 : m ∈ l.filter (passes cfg) :=
    List.mem_filter.mpr ⟨hl, (passes_iff cfg m).mpr hsp⟩
  have hlen : ((l.filter (passes cfg)).mergeSort priceLe).length ≤
      cfg.MAX_TRADES_PER_RUN := by
    rw [List.length_mergeSort]; exact hcap
  rw [List.take_of_length_le hlen]
  exact List.mem_mergeSort.mpr h2

/-- Witness for `c2_filter_membership`: the Scenario A market passes
the filter under the default configuration. -/
theorem c2_witness : mkt95 ∈ filter_markets defaultConfig [mkt95] :=
  ((c2_filter_membership defaultConfig [mkt95] mkt95).2
      (le_trans (List.length_filter_le _ _)
        (by norm_num [defaultConfig, MAX_TRADES_PER_RUN]))).mpr
    ⟨List.mem_singleton.mpr rfl, passesSpec_mkt95⟩

lemma priceLe_trans (a b c : Market) :
    priceLe a b → priceLe b c → priceLe a c := by
  simp only [priceLe, decide_eq_true_eq]
  exact le_trans

lemma priceLe_total (a b : Market) : priceLe a b || priceLe b a := by
  simp only [priceLe, Bool.or_eq_true, decide_eq_true_eq]
  exact le_total _ _

/-- Claim C5: the filter output is sorted ascending by dominant price,
is (as a multiset) drawn from the input, has length at most the
configured cap, the underlying stable sort keeps equal-price candidates
in their original relative order, and the filter is a pure function
(running it twice on the same input and configuration is the same
term). -/
theorem c5_filter_shape (cfg : Config) (l : List Market) :
    List.Pairwise (fun a b : Market =>
      a.high_probability_price ≤ b.high_probability_price)
      (filter_markets cfg l) ∧
    (filter_markets cfg l).Subperm l ∧
    (filter_markets cfg l).length ≤ cfg.MAX_TRADES_PER_RUN ∧
    (∀ a b : Market, a.high_probability_price = b.high_probability_price →
      List.Sublist [a, b] (l.filter (passes cfg)) →
      List.Sublist [a, b] ((l.filter (passes cfg)).mergeSort priceLe)) ∧
    filter_markets cfg l = filter_markets cfg l := by
  refine ⟨?_, ?_, ?_, ?_, rfl⟩
  · have hs : ((l.filter (passes cfg)).mergeSort priceLe).Pairwise
        (fun a b => priceLe a b) :=
      List.sorted_mergeSort priceLe_trans priceLe_total _
    have hs' : ((l.filter (passes cfg)).mergeSort priceLe).Pairwise
        (fun a b : Market =>
          a.high_probability_price ≤ b.high_probability_price) :=
      hs.imp (fun h => by simpa [priceLe, decide_eq_true_eq] using h)
    exact List.Pairwise.sublist (List.take_sublist _ _) hs'
  · have h1 : List.Sublist (filter_markets cfg l)
        ((l.filter (passes cfg)).mergeSort priceLe) := List.take_sublist _ _
    have h2 : List.Perm ((l.filter (passes cfg)).mergeSort priceLe)
        (l.filter (passes cfg)) := List.mergeSort_perm _ _
    have h3 : List.Sublist (l.filter (passes cfg)) l := List.filter_sublist l
    exact (h1.subperm.trans h2.subperm).trans h3.subperm
  · unfold filter_markets
    exact List.length_take_le _ _
  · intro a b hab hsub
    refine List.sublist_mergeSort priceLe_trans priceLe_total ?_ hsub
    refine List.Pairwise.cons ?_ (List.pairwise_singleton _ _)
    intro b' hb'
    rcases List.mem_singleton.mp hb' with rfl
    simp only [priceLe, decide_eq_true_eq]
    exact le_of_eq hab

lemma passes_mkt95 : passes defaultConfig mkt95 = true :=
  (passes_iff defaultConfig mkt95).mpr passesSpec_mkt95

lemma passes_m5b : passes defaultConfig m5b = true :=
  (passes_iff defaultConfig m5b).mpr passesSpec_m5b

/-- Witness for `c5_filter_shape`: two equal-price survivors keep their
original relative order in the sorted survivor list. -/
theorem c5_witness :
    List.Sublist [mkt95, m5b]
      (([mkt95, m5b].filter (passes defaultConfig)).mergeSort priceLe) :=
  (c5_filter_shape defaultConfig [mkt95, m5b]).2.2.2.1 mkt95 m5b rfl
    (by
      rw [show [mkt95, m5b].filter (passes defaultConfig) = [mkt95, m5b] by
        simp [List.filter, passes_mkt95, passes_m5b]])

/-! ### Theorems about the run_once trade loop (Claim C6) -/

/-- A candidate whose dominant price exceeds `1`, making
`cost = price × 5 = 7` unaffordable at balance `6` although the
pre-check `balance < TRADE_AMOUNT` passes. -/
def m6a : Market :=
  ⟨"m6a", "qa", "", [7/5, 1/10], 5000, 0, some 0, [], false, true,
   "", "", some 1⟩

/-- A later candidate with dominant price `0.9` (cost `4.5`). -/
def m6b : Market :=
  ⟨"m6b", "qb", "", [9/10, 1/10], 5000, 0, some 0, [], false, true,
   "", "", some 1⟩

lemma m6a_price : m6a.high_probability_price = 7/5 := by
  rw [Market.high_probability_price]
  simp [m6a, Market.yes_price, Market.no_price]
  norm_num [max_def]

lemma m6b_price : m6b.high_probability_price = 9/10 := by
  rw [Market.high_probability_price]
  simp [m6b, Market.yes_price, Market.no_price]
  norm_num [max_def]

/-- Claim C6 (amended): the per-cycle loop aborts before an attempt
once `balance < TRADE_AMOUNT`; a no-trade return does not abort it (see
`c6_counterexample`), but for candidates in the eligibility band
(dominant price in `[MIN_PROBABILITY, MAX_PROBABILITY]`, hence
`cost ≤ 4.9 < TRADE_AMOUNT = 5`), an attempt made after a passing
pre-check always succeeds, so an insufficient-balance no-trade never
occurs within a cycle over filtered candidates. -/
theorem c6_loop_spec (st : VirtualTrader) (ms : List Market)
    (acc : List ExecutedTrade) :
    (st.balance < TRADE_AMOUNT → tradeLoop st ms acc = (st, acc)) ∧
    (∀ m : Market, ¬ st.balance < TRADE_AMOUNT →
      MIN_PROBABILITY ≤ m.high_probability_price →
      m.high_probability_price ≤ MAX_PROBABILITY →
      ∃ st' t, executeTrade st m none = .ok (st', some t)) := by
  constructor
  · intro hb
    cases ms with
    | nil => rfl
    | cons m rest =>
      unfold tradeLoop
      rw [if_pos hb]
  · intro m hb h1 h2
    have hp : m.high_probability_price ≠ 0 := by
      intro h
      rw [h] at h1
      norm_num [MIN_PROBABILITY] at h1
    have hb' : ¬ st.balance < m.high_probability_price * 5 := by
      push_neg at hb ⊢
      unfold TRADE_AMOUNT at hb
      unfold MAX_PROBABILITY at h2
      linarith
    exact ⟨_, _, by unfold executeTrade; rw [if_neg hp, if_neg hb']⟩

/-- Claim C6 counterexample: at balance `6`, the attempt on `m6a`
returns no trade because the balance is insufficient (`6 < cost = 7`),
yet the loop goes on to attempt — and execute — the later candidate
`m6b` in the same cycle, so a no-trade return does not abort the loop. -/
theorem c6_counterexample :
    resultState (executeTrade (mkTrader 6) m6a none) = some (mkTrader 6) ∧
    resultTrade (executeTrade (mkTrader 6) m6a none) = none ∧
    (mkTrader 6).balance < m6a.high_probability_price * 5 ∧
    ((tradeLoop (mkTrader 6) [m6a, m6b] []).2.map
      (fun t => t.market_id)) = ["m6b"] := by
  have ha : executeTrade (mkTrader 6) m6a none = .ok (mkTrader 6, none) := by
    unfold executeTrade
    rw [m6a_price]
    norm_num [mkTrader]
  obtain ⟨st', t, hbe, htid⟩ :
      ∃ st' t, executeTrade (mkTrader 6) m6b none = .ok (st', some t) ∧
        t.market_id = "m6b" := by
    unfold executeTrade
    rw [m6b_price, if_neg (by norm_num), if_neg (by norm_num [mkTrader])]
    exact ⟨_, _, rfl, rfl⟩
  refine ⟨by rw [ha]; rfl, by rw [ha]; rfl, by rw [m6a_price]; norm_num [mkTrader], ?_⟩
  have hloop : tradeLoop (mkTrader 6) [m6a, m6b] [] = (st', [t]) := by
    unfold tradeLoop
    rw [if_neg (by norm_num [mkTrader, TRADE_AMOUNT]), ha]
    unfold tradeLoop
    rw [if_neg (by norm_num [mkTrader, TRADE_AMOUNT]), hbe]
    rfl
  rw [hloop, List.map_cons, List.map_nil, htid]

/-- Witness for `c6_loop_spec`: at balance `4 < TRADE_AMOUNT` the loop
aborts immediately, and at balance `10` an eligibility-band candidate
is always executed. -/
theorem c6_witness :
    tradeLoop (mkTrader 4) [m6b] [] = (mkTrader 4, []) ∧
    (∃ st' t, executeTrade (mkTrader 10) m6b none = .ok (st', some t)) :=
  ⟨(c6_loop_spec (mkTrader 4) [m6b] []).1
      (by norm_num [mkTrader, TRADE_AMOUNT]),
   (c6_loop_spec (mkTrader 10) [] []).2 m6b
      (by norm_num [mkTrader, TRADE_AMOUNT])
      (by rw [m6b_price]; norm_num [MIN_PROBABILITY])
      (by rw [m6b_price]; norm_num [MAX_PROBABILITY])⟩

/-! ### Theorems about TradeRecorder.record_run (Claim C7) -/

/-- One executed trade as recorded: `amount = 5` shares bought at price
`0.9`, so `cost = 4.5`. -/
def ex7 : List RecTrade := [⟨5, 9/2⟩]

/-- Claim C7 evaluated at the failing input: `record_run` increases the
`total_invested` counter by the sum of `amount` (the share counts, here
`5`), not by the sum of `cost` (here `4.5`), so after the append the
counter differs from the sum of cost across all executed trades in the
ledger. -/
theorem c7_total_invested_uses_amount :
    (record_run emptyStore ex7).total_invested = 5 ∧
    ((record_run emptyStore ex7).runs.map
      (fun r => (r.executed_trades.map (fun t => t.cost)).sum)).sum = 9/2 ∧
    (record_run emptyStore ex7).total_invested ≠
      ((record_run emptyStore ex7).runs.map
        (fun r => (r.executed_trades.map (fun t => t.cost)).sum)).sum := by
  refine ⟨?_, ?_, ?_⟩ <;> norm_num [record_run, emptyStore, ex7]

/-! ### Theorems about MarketScanner.parse_market (Claim C8) -/

lemma parse_market_fields (d : RawMarket) (v l : ℚ)
    (hv : coerceNum d.volume = some v) (hl : coerceNum d.liquidity = some l) :
    ∃ mk, parse_market d = some mk ∧ mk.volume = v ∧ mk.liquidity = l := by
  unfold parse_market
  rw [hv, hl]
  exact ⟨_, rfl, rfl, rfl⟩

/-- Claim C8 (amended): an absent or falsy `volume`/`liquidity` value
defaults to `0` in the produced `Market`; but a present, truthy,
non-numeric value makes `float` raise, the outer `except` returns
`None`, and the record is dropped (see `c8_counterexample`). -/
theorem c8_parse_defaults (d : RawMarket) :
    (parse_market d = none ↔
      coerceNum d.volume = none ∨ coerceNum d.liquidity = none) ∧
    ((d.volume = .absent ∨ d.volume = .falsy) →
      (coerceNum d.liquidity).isSome →
      ∃ mk, parse_market d = some mk ∧ mk.volume = 0) ∧
    ((d.liquidity = .absent ∨ d.liquidity = .falsy) →
      (coerceNum d.volume).isSome →
      ∃ mk, parse_market d = some mk ∧ mk.liquidity = 0) := by
  refine ⟨?_, ?_, ?_⟩
  · unfold parse_market
    rcases hv : coerceNum d.volume with _ | v <;>
      rcases hl : coerceNum d.liquidity with _ | l <;> simp
  · intro h hl
    have hv : coerceNum d.volume = some 0 := by
      rcases h with h | h <;> rw [h] <;> rfl
    rcases Option.isSome_iff_exists.mp hl with ⟨l, hl'⟩
    obtain ⟨mk, hmk, hvol, -⟩ := parse_market_fields d 0 l hv hl'
    exact ⟨mk, hmk, hvol⟩
  · intro h hv
    have hl : coerceNum d.liquidity = some 0 := by
      rcases h with h | h <;> rw [h] <;> rfl
    rcases Option.isSome_iff_exists.mp hv with ⟨v, hv'⟩
    obtain ⟨mk, hmk, -, hliq⟩ := parse_market_fields d v 0 hv' hl
    exact ⟨mk, hmk, hliq⟩

/-- A raw record whose `volume` is a truthy non-numeric string and
whose other fields are well-formed. -/
def raw8bad : RawMarket :=
  ⟨some "r1", some "q", none, none, none, some [19/20, 1/20], none,
   .badStr, .num 7, some (some 0), some (.b false), some (.b true), some 2⟩

/-- The same record with `volume` absent instead. -/
def raw8ok : RawMarket :=
  ⟨some "r1", some "q", none, none, none, some [19/20, 1/20], none,
   .absent, .num 7, some (some 0), some (.b false), some (.b true), some 2⟩

/-- Claim C8 counterexample: a record whose `volume` field is a truthy
non-numeric value is dropped (`parse_market` returns `None`) instead of
yielding a `Market` with `volume = 0`. -/
theorem c8_counterexample : parse_market raw8bad = none := rfl

/-- Witness for `c8_parse_defaults`: with `volume` absent the record is
kept and its volume defaults to `0`. -/
theorem c8_witness : ∃ mk, parse_market raw8ok = some mk ∧ mk.volume = 0 :=
  (c8_parse_defaults raw8ok).2.1 (Or.inl rfl) (by decide)

/-! ### Theorems about MarketScanner.check_settlements (Claim C3) -/

/-- An unsettled trade on market `"m1"`. -/
def t3 : LTrade := ⟨"m1", "q1", false, none⟩

/-- What reconciliation turns `t3` into once `"m1"` is closed with a
null resolution. -/
def t3r : LTrade := ⟨"m1", "q1", true, some "CANCELLED"⟩

/-- A ledger holding the single unsettled trade `t3`. -/
def ledger3 : Ledger := [⟨[t3]⟩]

/-- A ledger in which every trade is already settled. -/
def settled3 : Ledger := [⟨[⟨"m1", "q1", true, some "Yes"⟩]⟩]

/-- Upstream state: market `"m1"` is closed with a null resolution. -/
def api3 : String → Option ApiMarket :=
  fun i => if i == "m1" then some ⟨true, none⟩ else none

/-- Claim C3 evaluated: reconciling a fully-settled ledger queries
nothing and returns empty sets (the claim's first half holds), but
because `run_once` never writes the settlement result back (the
write-back is a `TODO` in main.py), the ledger after the settlement
step equals the ledger before it, and the same trade is reported
newly-resolved (as `CANCELLED`) again on the next reconciliation call —
not exactly once. -/
theorem c3_settlement_bug :
    (∀ (api : String → Option ApiMarket) (ledger : Ledger),
      (∀ r, r ∈ ledger → ∀ t, t ∈ r.executed_trades → t.settled = true) →
      checkSettlements api ledger = (⟨[], [], []⟩, 0)) ∧
    (runOnceSettlement api3 ledger3).2 = ledger3 ∧
    (runOnceSettlement api3 ledger3).1.newly_resolved = [t3r] ∧
    (runOnceSettlement api3
      ((runOnceSettlement api3 ledger3).2)).1.newly_resolved = [t3r] := by
  refine ⟨?_, by decide, by decide, by decide⟩
  intro api ledger hall
  have hnil : allUnsettled ledger = [] := by
    induction ledger with
    | nil => rfl
    | cons r rest ih =>
      unfold allUnsettled
      simp only [List.foldr_cons]
      have h1 : r.executed_trades.filter (fun t => !t.settled) = [] := by
        rw [List.filter_eq_nil_iff]
        intro t ht
        simp [hall r (List.mem_cons_self r rest) t ht]
      rw [h1]
      simpa [allUnsettled] using
        ih (fun r' hr' t ht => hall r' (List.mem_cons_of_mem r hr') t ht)
  unfold checkSettlements
  rw [hnil]
  rfl

/-- Witness for `c3_settlement_bug`: the fully-settled concrete ledger
is reconciled with zero queries and empty result sets. -/
theorem c3_witness : checkSettlements api3 settled3 = (⟨[], [], []⟩, 0) :=
  c3_settlement_bug.1 api3 settled3 (by decide)

end PMarb
